import Mathlib

/-!
Verification development for the CryptoAuth session core
(`rust/cjdns_sys/src/crypto/crypto_auth.rs`).

Bytes are modelled as `List Nat` (each element a byte value), `u32` counters as
`Nat`.  The external cryptographic primitives (scalarmult, sha256, the NaCl
box seal/open pair, the IPv6 derivation of a public key and the precomputed
box key) are opaque in the source (`sodiumoxide`, `cjdns_keys`), so they are
abstracted into a `CryptoPrims` bundle.  The bundle carries the three facts the
source documents about the seal/open pair ("Grows the message by 16 bytes",
"Shrinks the message by 16 bytes", round-trip correctness of NaCl box), which
the source relies on through `assert_eq!` and its tests.
-/

/-- All-zero test on a byte string, as `IsZero::is_zero` does byte-wise. -/
def isZero (l : List Nat) : Bool := l.all (fun b => b == 0)

/-- The 32 zero bytes written by `reset()` and session construction. -/
def zeros32 : List Nat := List.replicate 32 0

/-- Big-endian serialization of a `u32` (as `u32::to_be` on the wire). -/
def be32 (v : Nat) : List Nat :=
  [v / 16777216 % 256, v / 65536 % 256, v / 256 % 256, v % 256]

/-- Big-endian parse of the first four bytes (reading a wire `u32`). -/
def from32be (l : List Nat) : Nat :=
  match l with
  | a :: b :: c :: d :: _ => a % 256 * 16777216 + b % 256 * 65536 + c % 256 * 256 + d % 256
  | _ => 0

/-- Little-endian serialization of a `u32` (`u32::to_le` inside traffic nonces). -/
def le32 (v : Nat) : List Nat :=
  [v % 256, v / 256 % 256, v / 65536 % 256, v / 16777216 % 256]

/-- Lexicographic byte-wise comparison of two equally long byte strings: the
derived `Ord` of the 32-byte `PublicKey` wrapper used by
`self.her_public_key < sess.context.public_key`. -/
def bytesLt : List Nat → List Nat → Bool
  | [], [] => false
  | [], _ :: _ => true
  | _ :: _, [] => false
  | a :: as_, b :: bs => if a < b then true else if b < a then false else bytesLt as_ bs

/-- The opaque cryptographic primitives the source calls into, together with
the contracts of the seal/open pair that the source states in the doc comments
of `encrypt_rnd_nonce` / `decrypt_rnd_nonce` and enforces with `assert_eq!`. -/
structure CryptoPrims where
  -- `crypto_box::seal_precomputed` : nonce, key, message ↦ ciphertext.
  sealBox : List Nat → List Nat → List Nat → List Nat
  -- `crypto_box::open_precomputed` : nonce, key, ciphertext ↦ message.
  openBox : List Nat → List Nat → List Nat → Option (List Nat)
  -- `crypto_hash_sha256`.
  sha256 : List Nat → List Nat
  -- `crypto_scalarmult_curve25519`.
  scalarmult : List Nat → List Nat → List Nat
  -- `crypto_scalarmult_curve25519_base`.
  scalarmult_base : List Nat → List Nat
  -- `crypto_box::precompute` : public key, secret key ↦ shared key.
  precompute : List Nat → List Nat → List Nat
  -- `IpV6::try_from(&PublicKey)` : the double-SHA-512 ip6 derivation.
  ip6_of_pub : List Nat → Option (List Nat)
  -- "adds 16 bytes": sealing grows the message by the 16-byte tag.
  seal_len : ∀ n k m, (sealBox n k m).length = m.length + 16
  -- "16 bytes less": a successful open shrinks the ciphertext by 16 bytes.
  opn_len : ∀ n k c m, openBox n k c = some m → m.length + 16 = c.length
  -- NaCl box round trip: opening a sealed message recovers it.
  opn_seal : ∀ n k m, openBox n k (sealBox n k m) = some m

/-- The `Message` buffer: front padding, contents (front byte first), total
capacity and the 4-byte-alignment observation the source checks. -/
structure Message where
  pad : Nat
  bytes : List Nat
  cap : Nat
  aligned4 : Bool
deriving DecidableEq, Repr

/-- `Message::push_bytes` : prepend, consuming front padding. -/
def Message.pushBytes (m : Message) (bs : List Nat) : Message :=
  { m with pad := m.pad - bs.length, bytes := bs ++ m.bytes }

/-- `Message::discard_bytes` / the dropping half of `pop_bytes`. -/
def Message.discardBytes (m : Message) (n : Nat) : Message :=
  { m with pad := m.pad + n, bytes := m.bytes.drop n }

/-- The 12-byte `Challenge` struct (modelled from the spec: `crypto_header.rs`
is not part of the sources; §4.5 gives the layout
`{ auth_type u8, lookup [7]u8, derivation_count be_u16, additional be_u16 }`). -/
structure Challenge where
  auth_type : Nat
  lookup : List Nat
  require_packet_auth_and_derivation_count : Nat
  additional : Nat
deriving DecidableEq, Repr

/-- Modelled from the spec: `Challenge::as_key_bytes`, the `KEYSIZE`-byte
lookup key of a challenge (`auth_type` byte followed by the 7 lookup bytes). -/
def Challenge.as_key_bytes (c : Challenge) : List Nat :=
  c.auth_type % 256 :: c.lookup

/-- Wire serialization of a `Challenge` (12 bytes). -/
def serChallenge (c : Challenge) : List Nat :=
  c.auth_type % 256 :: c.lookup
    ++ [c.require_packet_auth_and_derivation_count / 256 % 256,
        c.require_packet_auth_and_derivation_count % 256]
    ++ [c.additional / 256 % 256, c.additional % 256]

/-- Parse of the 12 challenge bytes at offset 4 of a `CryptoHeader`. -/
def parseChallenge (l : List Nat) : Challenge :=
  { auth_type := l.headD 0
    lookup := (l.drop 1).take 7
    require_packet_auth_and_derivation_count := (l.drop 8).headD 0 * 256 + (l.drop 9).headD 0
    additional := (l.drop 10).headD 0 * 256 + (l.drop 11).headD 0 }

/-- The 120-byte `CryptoHeader` (modelled from the spec layout of §4.5, which
the source manipulates through `crypto_header.rs`): nonce(4) ‖ auth(12) ‖
handshake_nonce(24) ‖ public_key(32) ‖ authenticator(16) ‖
encrypted_temp_key(32). `nonce` holds the big-endian-decoded value. -/
structure CryptoHeader where
  nonce : Nat
  auth : Challenge
  handshake_nonce : List Nat
  public_key : List Nat
  authenticator : List Nat
  encrypted_temp_key : List Nat
deriving DecidableEq, Repr

/-- `msg.peek::<CryptoHeader>()` : parse the first 120 bytes of a message. -/
def parseHeader (l : List Nat) : CryptoHeader :=
  { nonce := from32be (l.take 4)
    auth := parseChallenge ((l.drop 4).take 12)
    handshake_nonce := (l.drop 16).take 24
    public_key := (l.drop 40).take 32
    authenticator := (l.drop 72).take 16
    encrypted_temp_key := (l.drop 88).take 32 }

/-- Modelled from the spec: the `ReplayProtector` (its source file is not in
the sources).  §4.7: a window with a floor set by `init`, cleared by `reset`;
`check_nonce` rejects nonces below the floor or already seen. -/
structure ReplayProtector where
  floor : Nat
  seen : List Nat
deriving DecidableEq, Repr

/-- Modelled from the spec: `ReplayProtector::new`, an empty window. -/
def ReplayProtector.new : ReplayProtector := { floor := 0, seen := [] }

/-- Modelled from the spec: `init(n)` positions the window floor at `n`. -/
def ReplayProtector.init (n : Nat) : ReplayProtector := { floor := n, seen := [] }

/-- Modelled from the spec: `reset()` clears the window. -/
def ReplayProtector.reset (_rp : ReplayProtector) : ReplayProtector := ReplayProtector.new

/-- Modelled from the spec: `check_nonce` returns false below the floor or on a
repeat, otherwise records the nonce. -/
def ReplayProtector.check_nonce (rp : ReplayProtector) (n : Nat) : Bool × ReplayProtector :=
  if n < rp.floor ∨ n ∈ rp.seen then (false, rp)
  else (true, { rp with seen := n :: rp.seen })

/-- A registry `User`. -/
structure User where
  password_hash : List Nat
  user_name_hash : List Nat
  secret : List Nat
  login : List Nat
  restricted_to_ip6 : Option (List Nat)
deriving DecidableEq, Repr

/-- `AddUserError`. -/
inductive AddUserError where
  | Duplicate (login : List Nat)
deriving DecidableEq, Repr

/-- `DecryptErr`, the closed error taxonomy. -/
inductive DecryptErr where
  | None | Runt | NoSession | FinalShakeFail | FailedDecryptionRunMsg
  | KeyPktEstablishedSession | WrongPermPubkey | IpRestricted | AuthRequired
  | UnrecognizedAuth | StrayKey | HandshakeDecryptFailed | Wiseguy
  | InvalidPacket | Replay | Decrypt
deriving DecidableEq, Repr

/-- `DecryptError` : a protocol error or an internal `ensure!` failure. -/
inductive DecryptError where
  | DecryptErr (e : DecryptErr)
  | Internal (msg : String)
deriving DecidableEq, Repr

/-- `EncryptError`. -/
inductive EncryptError where
  | Internal (msg : String)
deriving DecidableEq, Repr

/-- `KeyError`. -/
inductive KeyError where
  | BadPublicKey | ZeroPublicKey
deriving DecidableEq, Repr

deriving instance DecidableEq for Except

/-- `hash_password`: secret is SHA-256 of the password; the challenge lookup is
bytes 1..8 of SHA-256(secret) for AuthType 1 or of SHA-256(login) for
AuthType 2.  AuthType 0 panics in the source, modelled as `none`. -/
def hash_password (C : CryptoPrims) (login password : List Nat) (auth_type : Nat) :
    Option (List Nat × Challenge) :=
  let secret_out := C.sha256 password
  let tmp? : Option (List Nat) :=
    if auth_type = 1 then some (C.sha256 secret_out)
    else if auth_type = 2 then some (C.sha256 login)
    else none
  tmp?.map (fun tmp =>
    (secret_out,
      { auth_type := auth_type
        lookup := (tmp.drop 1).take 7
        require_packet_auth_and_derivation_count := 0
        additional := 0 }))

/-- The auto-assigned login `"Anon #<n>"` for users added without one. -/
def anonLogin (n : Nat) : List Nat :=
  [65, 110, 111, 110, 32, 35] ++ (Nat.toDigits 10 n).map Char.toNat

/-- The duplicate scan of `CryptoAuth::add_user_ipv6`: walk the registry; a
user with the same secret is skipped ("Do nothing"), otherwise an explicitly
given login equal to an existing login is a duplicate. -/
def findDupLogin (secret : List Nat) (login : Option (List Nat)) :
    List User → Option (List Nat)
  | [] => none
  | u :: rest =>
    if secret = u.secret then findDupLogin secret login rest
    else
      match login with
      | some l => if l = u.login then some l else findDupLogin secret login rest
      | none => findDupLogin secret login rest

/-- `CryptoAuth::add_user_ipv6` on the user registry. -/
def add_user_ipv6 (C : CryptoPrims) (users : List User) (password : List Nat)
    (login : Option (List Nat)) (ipv6 : Option (List Nat)) :
    Except AddUserError (List User) :=
  let uLogin := match login with
    | some l => l
    | none => anonLogin users.length
  let user_name_hash := match hash_password C uLogin password 2 with
    | some (_, ac) => ac.as_key_bytes
    | none => []
  let sp := match hash_password C [] password 1 with
    | some (s, ac) => (s, ac.as_key_bytes)
    | none => ([], [])
  let user : User :=
    { password_hash := sp.2, user_name_hash := user_name_hash, secret := sp.1
      login := uLogin, restricted_to_ip6 := ipv6 }
  match findDupLogin sp.1 login users with
  | some l => .error (.Duplicate l)
  | none => .ok (users ++ [user])

/-- `CryptoAuth::get_auth`: linear scan of the registry for a user whose
stored key bytes match the challenge's, per auth type; auth type 0 matches
nothing. -/
def get_auth (users : List User) (auth : Challenge) : Option User :=
  if auth.auth_type = 0 then none
  else
    users.find? (fun u =>
      if auth.auth_type = 1 then auth.as_key_bytes == u.password_hash
      else if auth.auth_type = 2 then auth.as_key_bytes == u.user_name_hash
      else false)

/-- `get_shared_secret`: with a password hash, SHA-256 of the 64-byte union
buffer `{ key = scalarmult(my_priv, her_pub), passwd = password_hash }`;
without one, the NaCl precomputed box key of the pair. -/
def get_shared_secret (C : CryptoPrims) (my_private_key her_public_key : List Nat)
    (password_hash : Option (List Nat)) : List Nat :=
  match password_hash with
  | some ph =>
    let key := C.scalarmult my_private_key her_public_key
    let bytes := key ++ ph
    C.sha256 bytes
  | none => C.precompute her_public_key my_private_key

/-- `encrypt_rnd_nonce`: seal the message contents in place; the buffer grows
at the front by the 16 tag bytes (`push_bytes(&[0; 16])` then the copy of the
sealed bytes, whose length the source `assert_eq!`s). -/
def encrypt_rnd_nonce (C : CryptoPrims) (nonce : List Nat) (msg : Message)
    (secret : List Nat) : Message :=
  { msg with pad := msg.pad - 16, bytes := C.sealBox nonce secret msg.bytes }

/-- `decrypt_rnd_nonce`: refuse messages under 16 bytes, open in place,
shrink by 16 (`discard_bytes(16)` then the copy of the opened bytes). -/
def decrypt_rnd_nonce (C : CryptoPrims) (nonce : List Nat) (msg : Message)
    (secret : List Nat) : Option Message :=
  if msg.bytes.length < 16 then none
  else
    match C.openBox nonce secret msg.bytes with
    | none => none
    | some decrypted => some { msg with pad := msg.pad + 16, bytes := decrypted }

/-- The 24-byte traffic nonce: a little-endian `u32` at word offset `offs`
(0 or 1), remaining bytes zero — the `union Nonce { ints, bytes }` trick. -/
def trafficNonce (offs : Nat) (nonce : Nat) : List Nat :=
  if offs = 0 then le32 nonce ++ List.replicate 20 0
  else List.replicate 4 0 ++ le32 nonce ++ List.replicate 16 0

/-- The free `encrypt` for traffic packets: counter at word offset 1 when
initiator, else 0. -/
def encrypt (C : CryptoPrims) (nonce : Nat) (msg : Message) (secret : List Nat)
    (is_initiator : Bool) : Message :=
  encrypt_rnd_nonce C (trafficNonce (if is_initiator then 1 else 0) nonce) msg secret

/-- The free `decrypt` for traffic packets: counter at word offset 0 when
initiator, else 1. -/
def decrypt (C : CryptoPrims) (nonce : Nat) (msg : Message) (secret : List Nat)
    (is_initiator : Bool) : Option Message :=
  decrypt_rnd_nonce C (trafficNonce (if is_initiator then 0 else 1) nonce) msg secret

/-- The shared `CryptoAuth` context a session points back to. -/
structure Ctx where
  public_key : List Nat
  private_key : List Nat
  users : List User
deriving DecidableEq, Repr

/-- The mutable per-session state `SessionMut` (byte-array fields as lists,
`u32` fields as `Nat`, the auth type as its numeric value). -/
structure SessionMut where
  her_public_key : List Nat
  reset_after_inactivity_seconds : Nat
  setup_reset_after_inactivity_seconds : Nat
  shared_secret : List Nat
  her_temp_pub_key : List Nat
  our_temp_priv_key : List Nat
  our_temp_pub_key : List Nat
  password : Option (List Nat)
  login : Option (List Nat)
  next_nonce : Nat
  time_of_last_packet : Nat
  auth_type : Nat
  is_initiator : Bool
  require_auth : Bool
  established : Bool
deriving DecidableEq, Repr

/-- `SessionMut::reset` (does not touch the replay protector). -/
def SessionMut.reset (s : SessionMut) : SessionMut :=
  { s with
      next_nonce := 0
      is_initiator := false
      our_temp_priv_key := zeros32
      our_temp_pub_key := zeros32
      her_temp_pub_key := zeros32
      shared_secret := zeros32
      established := false }

/-- `SessionMut::reset_if_timeout` (`now` is the event-base clock reading). -/
def SessionMut.reset_if_timeout (s : SessionMut) (now : Nat) : SessionMut :=
  if s.next_nonce = 1 then s
  else
    let delta : Int := (now : Int) - (s.time_of_last_packet : Int)
    if delta < (s.setup_reset_after_inactivity_seconds : Int) then s
    else if delta < (s.reset_after_inactivity_seconds : Int) ∧ s.established then s
    else SessionMut.reset { s with time_of_last_packet := now }

/-- `SessionMut::set_auth`. -/
def SessionMut.set_auth (s : SessionMut) (password login : Option (List Nat)) : SessionMut :=
  if password.isNone ∧ (s.password.isSome ∨ s.auth_type ≠ 0) then
    SessionMut.reset { s with password := none, auth_type := 0 }
  else if s.password.isNone ∨ s.password ≠ password then
    let s1 := { s with password := password, auth_type := 1 }
    let s2 := if login.isSome then { s1 with auth_type := 2, login := login } else s1
    SessionMut.reset s2
  else s

/-- The sealing tail of `encrypt_handshake`: the temp-key invariant check,
then the pop / `encrypt_rnd_nonce` / truncate / push dance that leaves the
authenticator tag at offset 72. -/
def encrypt_handshake_seal (C : CryptoPrims) (s : SessionMut) (msg : Message)
    (hsNonce shared_secret : List Nat) : Except EncryptError Unit × SessionMut × Message :=
  if (decide (s.next_nonce < 2)) != isZero s.her_temp_pub_key then
    (.error (.Internal "Condition failed temp key invariant"), s, msg)
  else
    let saved := msg.bytes.take 88
    let m2 := msg.discardBytes 88
    let m3 := encrypt_rnd_nonce C hsNonce m2 shared_secret
    (.ok (), s, m3.pushBytes (saved.take 72))

/-- The `auth` header bytes and optional password hash `encrypt_handshake`
computes: a full challenge when both login and password are set (`none` models
the `hash_password` panic on auth type 0), otherwise the stored auth type over
the random garbage with `additional` zeroed. -/
def mkAuthBytes (C : CryptoPrims) (s : SessionMut) (authR : List Nat) :
    Option (List Nat × Option (List Nat)) :=
  match s.login, s.password with
  | some l, some p =>
    (hash_password C l p s.auth_type).map (fun pc => (serChallenge pc.2, some pc.1))
  | _, _ => some (s.auth_type % 256 :: ((authR.drop 1).take 9 ++ [0, 0]), none)

/-- `SessionMut::encrypt_handshake`.  `hsR` supplies the 36 random bytes drawn
over the `auth` + `handshake_nonce` region, `tP` the random ephemeral private
key. -/
def encrypt_handshake (C : CryptoPrims) (ctx : Ctx) (s : SessionMut) (msg : Message)
    (hsR tP : List Nat) : Except EncryptError Unit × SessionMut × Message :=
  if msg.pad < 120 then (.error (.Internal "push CryptoHeader failed"), s, msg)
  else
    let authR := hsR.take 12
    let hsNonce := (hsR.drop 12).take 24
    let mkMsg := fun (nonceField : Nat) (authBytes : List Nat) (tempField : List Nat) =>
      msg.pushBytes (be32 nonceField ++ authBytes ++ hsNonce ++ ctx.public_key
        ++ List.replicate 16 0 ++ tempField)
    if isZero s.her_public_key then
      (.error (.Internal "her_key_known"), s, mkMsg 0 authR (List.replicate 32 0))
    else
      match mkAuthBytes C s authR with
      | none =>
        (.error (.Internal "hash_password: unsupported auth type"), s,
          mkMsg 0 authR (List.replicate 32 0))
      | some ab =>
        let authBytes := ab.1
        let password_hash := ab.2
        let nonceField := s.next_nonce
        let s :=
          if s.next_nonce = 0 ∨ s.next_nonce = 2 then
            { s with our_temp_priv_key := tP, our_temp_pub_key := C.scalarmult_base tP }
          else s
        if s.next_nonce < 2 then
          let shared_secret :=
            get_shared_secret C ctx.private_key s.her_public_key password_hash
          let s := { s with is_initiator := true, next_nonce := 1 }
          encrypt_handshake_seal C s (mkMsg nonceField authBytes s.our_temp_pub_key)
            hsNonce shared_secret
        else
          let shared_secret :=
            get_shared_secret C ctx.private_key s.her_temp_pub_key password_hash
          if 3 < s.next_nonce then
            (.error (.Internal "Condition failed next_nonce <= SentKey"), s,
              mkMsg nonceField authBytes s.our_temp_pub_key)
          else
            let s := { s with next_nonce := 3 }
            encrypt_handshake_seal C s (mkMsg nonceField authBytes s.our_temp_pub_key)
              hsNonce shared_secret

/-- The nonce-monotonicity gate and final assignment of `decrypt_handshake`
("nonce sequence error"), followed by the replay-protector reset. -/
def dh_finish (s : SessionMut) (rp : ReplayProtector) (cand : Nat) (msg : Message) :
    Except DecryptError Unit × SessionMut × ReplayProtector × Message :=
  if s.next_nonce < cand ∨ (s.next_nonce ≤ 4 ∧ cand = s.next_nonce) then
    (.ok (), { s with next_nonce := cand }, ReplayProtector.new, msg)
  else (.error (.Internal "nonce sequence error"), s, rp, msg)

/-- The state-transition table of `decrypt_handshake`: the `match` on the
current `next_nonce` for a received (possibly repeat) key packet, and the
crossed-hello handling for a received (possibly repeat) hello packet. -/
def dh_transition (C : CryptoPrims) (ctx : Ctx) (s : SessionMut) (rp : ReplayProtector)
    (nonce : Nat) (msg : Message) (header : CryptoHeader) (cand : Nat) :
    Except DecryptError Unit × SessionMut × ReplayProtector × Message :=
  if cand = 4 then
    if ¬(nonce = 2 ∨ nonce = 3) then (.error (.Internal "key packet nonce"), s, rp, msg)
    else if s.next_nonce = 0 ∨ s.next_nonce = 2 ∨ s.next_nonce = 3 then
      (.error (.DecryptErr .StrayKey), s, rp, msg)
    else if s.next_nonce = 1 then
      dh_finish { s with her_temp_pub_key := header.encrypted_temp_key } rp 4 msg
    else if s.next_nonce = 4 then
      if nonce = 2 then
        dh_finish { s with her_temp_pub_key := header.encrypted_temp_key } rp 4 msg
      else if s.her_temp_pub_key = header.encrypted_temp_key then dh_finish s rp 4 msg
      else (.error (.Internal "repeat key packet with wrong key"), s, rp, msg)
    else
      if s.established then (.error (.Internal "established"), s, rp, msg)
      else if nonce = 2 then
        let s2 := { s with her_temp_pub_key := header.encrypted_temp_key }
        let s3 := { s2 with
          shared_secret :=
            get_shared_secret C s2.our_temp_priv_key s2.her_temp_pub_key none }
        dh_finish s3 rp (s3.next_nonce + 1) msg
      else if s.her_temp_pub_key = header.encrypted_temp_key then
        dh_finish s rp (s.next_nonce + 1) msg
      else (.error (.Internal "repeat key packet with wrong key"), s, rp, msg)
  else
    if ¬(nonce = 0 ∨ nonce = 1) then (.error (.Internal "hello packet nonce"), s, rp, msg)
    else if s.her_temp_pub_key ≠ header.encrypted_temp_key then
      if s.next_nonce = 1 then
        if bytesLt s.her_public_key ctx.public_key then
          dh_finish { s.reset with her_temp_pub_key := header.encrypted_temp_key }
            ReplayProtector.new 2 msg
        else (.ok (), s, rp, msg)
      else if s.next_nonce = 0 then
        dh_finish { s with her_temp_pub_key := header.encrypted_temp_key } rp 2 msg
      else
        dh_finish { s.reset with her_temp_pub_key := header.encrypted_temp_key }
          ReplayProtector.new 2 msg
    else
      if s.next_nonce = 2 ∨ s.next_nonce = 3 then dh_finish s rp s.next_nonce msg
      else (.error (.DecryptErr .InvalidPacket), s, rp, msg)

/-- The decryption half of `decrypt_handshake`: shift over the authenticator,
open with the handshake nonce, reject a zero temp key, the duplicate checks,
then the transition table. -/
def dh_post (C : CryptoPrims) (ctx : Ctx) (s : SessionMut) (rp : ReplayProtector)
    (nonce : Nat) (msg : Message) (header : CryptoHeader) (secret : List Nat) (cand : Nat) :
    Except DecryptError Unit × SessionMut × ReplayProtector × Message :=
  let m1 := msg.discardBytes 72
  match decrypt_rnd_nonce C header.handshake_nonce m1 secret with
  | none => (.error (.DecryptErr .HandshakeDecryptFailed), s, rp, m1)
  | some m2 =>
    if isZero header.encrypted_temp_key then (.error (.DecryptErr .Wiseguy), s, rp, m2)
    else
      let m3 := m2.discardBytes 32
      if nonce = 0 ∧ s.her_temp_pub_key = header.encrypted_temp_key then
        (.error (.DecryptErr .InvalidPacket), s, rp, m3)
      else if nonce = 2 ∧ 4 ≤ s.next_nonce ∧ s.her_temp_pub_key = header.encrypted_temp_key then
        if isZero s.her_temp_pub_key then
          (.error (.Internal "Condition failed temp key nonzero"), s, rp, m3)
        else (.error (.DecryptErr .InvalidPacket), s, rp, m3)
      else if nonce = 3 ∧ 4 ≤ s.next_nonce ∧ s.her_temp_pub_key ≠ header.encrypted_temp_key then
        if isZero s.her_temp_pub_key then
          (.error (.Internal "Condition failed temp key nonzero"), s, rp, m3)
        else (.error (.DecryptErr .InvalidPacket), s, rp, m3)
      else dh_transition C ctx s rp nonce m3 header cand

/-- `decrypt_handshake` after user lookup: the auth gates and the choice of
handshake secret and candidate next nonce. -/
def dh_checked (C : CryptoPrims) (ctx : Ctx) (s : SessionMut) (rp : ReplayProtector)
    (nonce : Nat) (msg : Message) (header : CryptoHeader)
    (password_hash : Option (List Nat)) (has_user : Bool) :
    Except DecryptError Unit × SessionMut × ReplayProtector × Message :=
  if s.require_auth && !has_user then (.error (.DecryptErr .AuthRequired), s, rp, msg)
  else if !has_user && !(header.auth.auth_type == 0) then
    (.error (.DecryptErr .UnrecognizedAuth), s, rp, msg)
  else if nonce < 2 then
    dh_post C ctx s rp nonce msg header
      (get_shared_secret C ctx.private_key s.her_public_key password_hash) 2
  else if ¬(nonce = 2 ∨ nonce = 3) then
    (.error (.Internal "Condition failed nonce == RepeatKey"), s, rp, msg)
  else if !s.is_initiator then (.error (.DecryptErr .StrayKey), s, rp, msg)
  else
    dh_post C ctx s rp nonce msg header
      (get_shared_secret C s.our_temp_priv_key s.her_public_key password_hash) 4

/-- `SessionMut::decrypt_handshake`. -/
def decrypt_handshake (C : CryptoPrims) (ctx : Ctx) (s : SessionMut) (rp : ReplayProtector)
    (nonce : Nat) (msg : Message) (header : CryptoHeader) :
    Except DecryptError Unit × SessionMut × ReplayProtector × Message :=
  if msg.bytes.length < 120 then (.error (.DecryptErr .Runt), s, rp, msg)
  else if isZero s.her_public_key then (.error (.Internal "her_key_known"), s, rp, msg)
  else if s.her_public_key ≠ header.public_key then
    (.error (.DecryptErr .WrongPermPubkey), s, rp, msg)
  else if (decide (s.next_nonce < 2)) != isZero s.her_temp_pub_key then
    (.error (.Internal "Condition failed temp key invariant"), s, rp, msg)
  else
    match get_auth ctx.users header.auth with
    | some u =>
      match u.restricted_to_ip6 with
      | some ip =>
        if some ip = C.ip6_of_pub s.her_public_key then
          dh_checked C ctx s rp nonce msg header (some u.secret) true
        else (.error (.DecryptErr .IpRestricted), s, rp, msg)
      | none => dh_checked C ctx s rp nonce msg header (some u.secret) true
    | none => dh_checked C ctx s rp nonce msg header none false

/-- `SessionMut::decrypt_message`: authenticated decryption then the replay
check. -/
def decrypt_message (C : CryptoPrims) (s : SessionMut) (nonce : Nat) (msg : Message)
    (secret : List Nat) (rp : ReplayProtector) :
    Except DecryptError Message × ReplayProtector :=
  match decrypt C nonce msg secret s.is_initiator with
  | none => (.error (.DecryptErr .Decrypt), rp)
  | some m2 =>
    let cr := rp.check_nonce nonce
    if cr.1 then (.ok m2, cr.2) else (.error (.DecryptErr .Replay), cr.2)

/-- `SessionMut::decrypt` (the `Session::decrypt` entry point); `now` is the
event-base time read by `update_time`. -/
def session_decrypt (C : CryptoPrims) (ctx : Ctx) (s : SessionMut) (rp : ReplayProtector)
    (msg : Message) (now : Nat) :
    Except DecryptError Unit × SessionMut × ReplayProtector × Message :=
  if msg.bytes.length < 20 then (.error (.DecryptErr .Runt), s, rp, msg)
  else if msg.pad < 12 then
    (.error (.Internal "Need at least 12 bytes of padding in incoming message"), s, rp, msg)
  else if msg.aligned4 = false then (.error (.Internal "Alignment fault"), s, rp, msg)
  else if msg.cap % 4 ≠ 0 then (.error (.Internal "Length fault"), s, rp, msg)
  else if msg.bytes.length < 120 then
    (.error (.Internal "Condition failed msg.len() >= CryptoHeader::SIZE"), s, rp, msg)
  else
    let header := parseHeader msg.bytes
    let m1 := msg.discardBytes 4
    let nonce := header.nonce
    if s.established = false then
      if 4 ≤ nonce then
        if s.next_nonce < 3 then (.error (.DecryptErr .NoSession), s, rp, m1)
        else
          let secret := get_shared_secret C s.our_temp_priv_key s.her_temp_pub_key none
          match decrypt_message C s nonce m1 secret rp with
          | (.ok m2, _) =>
            (.ok (),
              { s with
                  shared_secret := secret
                  established := true
                  next_nonce := s.next_nonce + 3
                  time_of_last_packet := now },
              ReplayProtector.init (nonce + 1), m2)
          | (.error e, _) => (.error e, s, ReplayProtector.init (nonce + 1), m1)
      else decrypt_handshake C ctx s rp nonce msg header
    else if 4 ≤ nonce then
      match decrypt_message C s nonce m1 s.shared_secret rp with
      | (.ok m2, rp2) => (.ok (), { s with time_of_last_packet := now }, rp2, m2)
      | (.error e, rp2) => (.error e, s, rp2, m1)
    else if nonce ≤ 1 then decrypt_handshake C ctx s rp nonce msg header
    else (.error (.DecryptErr .KeyPktEstablishedSession), s, rp, m1)

/-- The traffic tail of `SessionMut::encrypt`: payload checks, seal with the
counter nonce, push of the big-endian nonce prefix, counter increment. -/
def encrypt_traffic_tail (C : CryptoPrims) (s : SessionMut) (msg : Message) :
    Except EncryptError Unit × SessionMut × Message :=
  if msg.bytes.length = 0 then (.error (.Internal "Empty packet during handshake"), s, msg)
  else if msg.pad < 36 then (.error (.Internal "Not enough padding"), s, msg)
  else
    let m2 := encrypt C s.next_nonce msg s.shared_secret s.is_initiator
    if m2.pad < 4 then (.error (.Internal "push nonce failed"), s, m2)
    else (.ok (), { s with next_nonce := s.next_nonce + 1 }, m2.pushBytes (be32 s.next_nonce))

/-- `SessionMut::encrypt` (the `Session::encrypt` entry point): timeout reset,
nonce-wrap reset at `u32::MAX - 0xF`, then the handshake or traffic path. -/
def session_encrypt (C : CryptoPrims) (ctx : Ctx) (s : SessionMut) (msg : Message)
    (now : Nat) (hsR tP : List Nat) : Except EncryptError Unit × SessionMut × Message :=
  let s1 := s.reset_if_timeout now
  let s2 := if 4294967280 ≤ s1.next_nonce then s1.reset else s1
  if msg.aligned4 = false then (.error (.Internal "Alignment fault"), s2, msg)
  else if s2.next_nonce ≤ 4 then
    if s2.next_nonce < 4 then encrypt_handshake C ctx s2 msg hsR tP
    else
      encrypt_traffic_tail C
        { s2 with shared_secret :=
            get_shared_secret C s2.our_temp_priv_key s2.her_temp_pub_key none } msg
  else encrypt_traffic_tail C s2 msg

/-- `Session::new` (with `use_noise = false`). -/
def session_new (C : CryptoPrims) (her_pub_key : List Nat) (require_auth : Bool)
    (now : Nat) : Except KeyError SessionMut :=
  if isZero her_pub_key then .error .ZeroPublicKey
  else
    match C.ip6_of_pub her_pub_key with
    | none => .error .BadPublicKey
    | some _ =>
      .ok { her_public_key := her_pub_key
            reset_after_inactivity_seconds := 60
            setup_reset_after_inactivity_seconds := 10
            shared_secret := zeros32
            her_temp_pub_key := zeros32
            our_temp_priv_key := zeros32
            our_temp_pub_key := zeros32
            password := none, login := none
            next_nonce := 0
            time_of_last_packet := now
            auth_type := 0
            is_initiator := false
            require_auth := require_auth
            established := false }

/-- One observable operation on a `Session` (the public `encrypt`, `decrypt`,
`reset`, `reset_if_timeout` and `set_auth` entry points), as a relation on the
pair of session state and replay protector.  `Session::reset` resets both the
replay protector and the session state. -/
inductive Step (C : CryptoPrims) (ctx : Ctx) :
    SessionMut × ReplayProtector → SessionMut × ReplayProtector → Prop
  | encrypt (s : SessionMut) (rp : ReplayProtector) (msg : Message) (now : Nat)
      (hsR tP : List Nat) :
      Step C ctx (s, rp) ((session_encrypt C ctx s msg now hsR tP).2.1, rp)
  | decrypt (s : SessionMut) (rp : ReplayProtector) (msg : Message) (now : Nat) :
      Step C ctx (s, rp)
        ((session_decrypt C ctx s rp msg now).2.1, (session_decrypt C ctx s rp msg now).2.2.1)
  | reset (s : SessionMut) (rp : ReplayProtector) :
      Step C ctx (s, rp) (s.reset, ReplayProtector.new)
  | reset_if_timeout (s : SessionMut) (rp : ReplayProtector) (now : Nat) :
      Step C ctx (s, rp) (s.reset_if_timeout now, rp)
  | set_auth (s : SessionMut) (rp : ReplayProtector) (password login : Option (List Nat)) :
      Step C ctx (s, rp) (s.set_auth password login, rp)

/-- A concrete seal for closed evaluation: prefix a 16-byte tag of zeros. -/
def toySeal (_n _k m : List Nat) : List Nat := List.replicate 16 0 ++ m

/-- The matching open: check and strip the 16-byte zero tag. -/
def toyOpn (_n _k c : List Nat) : Option (List Nat) :=
  if 16 ≤ c.length ∧ c.take 16 = List.replicate 16 0 then some (c.drop 16) else none

theorem toyOpn_toySeal (n k m : List Nat) : toyOpn n k (toySeal n k m) = some m := by
  unfold toyOpn toySeal
  rw [if_pos]
  · rw [List.drop_append_of_le_length (by simp)]
    simp
  · constructor
    · simp
    · rw [List.take_append_of_le_length (by simp)]
      simp

/-- A concrete executable instance of the primitive bundle, used to evaluate
the development at closed inputs. -/
def toyPrims : CryptoPrims where
  sealBox := toySeal
  openBox := toyOpn
  sha256 := fun m => (m ++ List.replicate 32 0).take 32
  scalarmult := fun a b => (a ++ b ++ List.replicate 32 0).take 32
  scalarmult_base := fun a => (a ++ List.replicate 32 1).take 32
  precompute := fun p sk => (p ++ sk ++ List.replicate 32 2).take 32
  ip6_of_pub := fun p => some (p.take 16)
  seal_len := by
    intro n k m
    simp [toySeal]
  opn_len := by
    intro n k c m h
    unfold toyOpn at h
    split at h
    · rename_i hg
      cases h
      simp
      omega
    · cases h
  opn_seal := toyOpn_toySeal

/-- A base concrete session state for closed evaluations. -/
def wSess : SessionMut :=
  { her_public_key := List.replicate 32 1
    reset_after_inactivity_seconds := 60
    setup_reset_after_inactivity_seconds := 10
    shared_secret := zeros32
    her_temp_pub_key := zeros32
    our_temp_priv_key := zeros32
    our_temp_pub_key := zeros32
    password := none
    login := none
    next_nonce := 0
    time_of_last_packet := 0
    auth_type := 0
    is_initiator := false
    require_auth := false
    established := false }

/-- C8: `reset_if_timeout(now)` holds the session at `SentHello`; otherwise,
with `delta = now - time_of_last_packet`, it does nothing when `delta` is
below the setup-inactivity bound, does nothing when `delta` is below the
established-inactivity bound on an established session, and in every other
case stamps `time_of_last_packet := now` and calls `reset()` (next nonce back
to Init, ephemerals and shared secret zeroed, initiator and established
cleared). -/
theorem c8_reset_if_timeout (s : SessionMut) (now : Nat) :
    (s.next_nonce = 1 → s.reset_if_timeout now = s) ∧
    (s.next_nonce ≠ 1 →
      ((now : Int) - (s.time_of_last_packet : Int) <
          (s.setup_reset_after_inactivity_seconds : Int) →
        s.reset_if_timeout now = s) ∧
      ((s.setup_reset_after_inactivity_seconds : Int) ≤
          (now : Int) - (s.time_of_last_packet : Int) →
        (now : Int) - (s.time_of_last_packet : Int) <
          (s.reset_after_inactivity_seconds : Int) →
        s.established = true →
        s.reset_if_timeout now = s) ∧
      ((s.setup_reset_after_inactivity_seconds : Int) ≤
          (now : Int) - (s.time_of_last_packet : Int) →
        ((s.reset_after_inactivity_seconds : Int) ≤
            (now : Int) - (s.time_of_last_packet : Int) ∨ s.established = false) →
        s.reset_if_timeout now =
          SessionMut.reset { s with time_of_last_packet := now })) ∧
    SessionMut.reset { s with time_of_last_packet := now } =
      { s with
          time_of_last_packet := now
          next_nonce := 0
          is_initiator := false
          our_temp_priv_key := zeros32
          our_temp_pub_key := zeros32
          her_temp_pub_key := zeros32
          shared_secret := zeros32
          established := false } := by
  refine ⟨?_, ?_, rfl⟩
  · intro h1
    simp [SessionMut.reset_if_timeout, h1]
  · intro h1
    refine ⟨?_, ?_, ?_⟩
    · intro h2
      simp [SessionMut.reset_if_timeout, h1, h2]
    · intro h2 h3 h4
      rw [SessionMut.reset_if_timeout, if_neg h1, if_neg (by omega), if_pos ⟨h3, h4⟩]
    · intro h2 h3
      rw [SessionMut.reset_if_timeout, if_neg h1, if_neg (by omega), if_neg]
      intro hc
      rcases h3 with h3 | h3
      · omega
      · rw [h3] at hc
        exact Bool.false_ne_true hc.2

/-- Witness for C8 at a concrete input: a non-established session, 100 seconds
idle with a 10-second setup bound, is stamped and reset. -/
theorem c8_witness :
    wSess.next_nonce ≠ 1 ∧
    (wSess.setup_reset_after_inactivity_seconds : Int) ≤
      (100 : Nat) - (wSess.time_of_last_packet : Int) ∧
    wSess.established = false ∧
    wSess.reset_if_timeout 100 = SessionMut.reset { wSess with time_of_last_packet := 100 } :=
  ⟨by decide, by decide, rfl,
    ((c8_reset_if_timeout wSess 100).2.1 (by decide)).2.2 (by decide) (Or.inr rfl)⟩

/-- C10: `set_auth` with a password equal to the stored one is a no-op; with a
different password (including when none was stored) it stores the new
credentials and fully resets; with no password while credentials were set it
clears them and fully resets. -/
theorem c10_set_auth (s : SessionMut) (p : List Nat) (login : Option (List Nat)) :
    (s.password = some p → s.set_auth (some p) login = s) ∧
    (s.password ≠ some p →
      s.set_auth (some p) login =
        SessionMut.reset
          (if login.isSome then { s with password := some p, auth_type := 2, login := login }
           else { s with password := some p, auth_type := 1 })) ∧
    (s.password.isSome = true ∨ s.auth_type ≠ 0 →
      s.set_auth none login = SessionMut.reset { s with password := none, auth_type := 0 }) ∧
    (∀ t : SessionMut,
      (SessionMut.reset t).next_nonce = 0 ∧
      (SessionMut.reset t).is_initiator = false ∧
      (SessionMut.reset t).established = false ∧
      (SessionMut.reset t).our_temp_priv_key = zeros32 ∧
      (SessionMut.reset t).our_temp_pub_key = zeros32 ∧
      (SessionMut.reset t).her_temp_pub_key = zeros32 ∧
      (SessionMut.reset t).shared_secret = zeros32) := by
  refine ⟨?_, ?_, ?_, fun t => ⟨rfl, rfl, rfl, rfl, rfl, rfl, rfl⟩⟩
  · intro h
    rw [SessionMut.set_auth, if_neg (by simp), if_neg]
    simp [h]
  · intro h
    rw [SessionMut.set_auth, if_neg (by simp), if_pos (Or.inr h)]
  · intro h
    rw [SessionMut.set_auth, if_pos]
    exact ⟨rfl, h⟩

/-- Witness for C10 at concrete inputs: storing a first password resets the
session, re-setting the same password is a no-op. -/
theorem c10_witness :
    wSess.password ≠ some [1, 2] ∧
    wSess.set_auth (some [1, 2]) none =
      SessionMut.reset { wSess with password := some [1, 2], auth_type := 1 } ∧
    ({ wSess with password := some [9] } : SessionMut).password = some [9] ∧
    ({ wSess with password := some [9] } : SessionMut).set_auth (some [9]) none =
      { wSess with password := some [9] } :=
  ⟨by decide, by
    have h := (c10_set_auth wSess [1, 2] none).2.1 (by decide)
    simpa using h,
    rfl, (c10_set_auth { wSess with password := some [9] } [9] none).1 rfl⟩

/-- C5: with a password hash present, `get_shared_secret` is SHA-256 of the
64-byte concatenation of `scalarmult(my_priv, her_pub)` followed by the
password hash (key then password, in that order); with it absent, it is the
standard NaCl precomputed box key for the pair. -/
theorem c5_get_shared_secret (C : CryptoPrims) (my_priv her_pub ph : List Nat)
    (hk : (C.scalarmult my_priv her_pub).length = 32) (hp : ph.length = 32) :
    get_shared_secret C my_priv her_pub (some ph) =
      C.sha256 (C.scalarmult my_priv her_pub ++ ph) ∧
    (C.scalarmult my_priv her_pub ++ ph).length = 64 ∧
    (C.scalarmult my_priv her_pub ++ ph).take 32 = C.scalarmult my_priv her_pub ∧
    (C.scalarmult my_priv her_pub ++ ph).drop 32 = ph ∧
    get_shared_secret C my_priv her_pub none = C.precompute her_pub my_priv := by
  refine ⟨rfl, ?_, ?_, ?_, rfl⟩
  · simp [hk, hp]
  · rw [List.take_append_of_le_length (le_of_eq hk.symm), ← hk, List.take_length]
  · rw [← hk, List.drop_left]

/-- Witness for C5 at concrete 32-byte inputs under the toy primitives. -/
theorem c5_witness :
    (toyPrims.scalarmult (List.replicate 32 3) (List.replicate 32 4)).length = 32 ∧
    (List.replicate 32 5 : List Nat).length = 32 ∧
    (get_shared_secret toyPrims (List.replicate 32 3) (List.replicate 32 4)
        (some (List.replicate 32 5)) =
      toyPrims.sha256
        (toyPrims.scalarmult (List.replicate 32 3) (List.replicate 32 4)
          ++ List.replicate 32 5) ∧
     (toyPrims.scalarmult (List.replicate 32 3) (List.replicate 32 4)
        ++ List.replicate 32 5).length = 64 ∧
     (toyPrims.scalarmult (List.replicate 32 3) (List.replicate 32 4)
        ++ List.replicate 32 5).take 32 =
       toyPrims.scalarmult (List.replicate 32 3) (List.replicate 32 4) ∧
     (toyPrims.scalarmult (List.replicate 32 3) (List.replicate 32 4)
        ++ List.replicate 32 5).drop 32 = List.replicate 32 5 ∧
     get_shared_secret toyPrims (List.replicate 32 3) (List.replicate 32 4) none =
       toyPrims.precompute (List.replicate 32 4) (List.replicate 32 3)) :=
  ⟨by decide, by decide,
    c5_get_shared_secret toyPrims (List.replicate 32 3) (List.replicate 32 4)
      (List.replicate 32 5) (by decide) (by decide)⟩

/-- C6: `encrypt_rnd_nonce` grows the message by exactly the 16 tag bytes, and
`decrypt_rnd_nonce` with the same nonce and secret succeeds, shrinks it by 16,
and recovers the original message, so the net length is unchanged. -/
theorem c6_rnd_nonce_roundtrip (C : CryptoPrims) (nonce secret : List Nat) (msg : Message)
    (hpad : 16 ≤ msg.pad) :
    (encrypt_rnd_nonce C nonce msg secret).bytes.length = msg.bytes.length + 16 ∧
    decrypt_rnd_nonce C nonce (encrypt_rnd_nonce C nonce msg secret) secret = some msg := by
  constructor
  · simp [encrypt_rnd_nonce, C.seal_len]
  · unfold decrypt_rnd_nonce encrypt_rnd_nonce
    rw [if_neg, C.opn_seal]
    · have h : msg.pad - 16 + 16 = msg.pad := by omega
      simp [h]
    · simp [C.seal_len]

/-- Witness for C6 at a concrete message under the toy primitives. -/
theorem c6_witness :
    16 ≤ (Message.mk 20 [1, 2, 3] 140 true).pad ∧
    ((encrypt_rnd_nonce toyPrims (List.replicate 24 0) (Message.mk 20 [1, 2, 3] 140 true)
        (List.replicate 32 7)).bytes.length = (Message.mk 20 [1, 2, 3] 140 true).bytes.length + 16 ∧
     decrypt_rnd_nonce toyPrims (List.replicate 24 0)
        (encrypt_rnd_nonce toyPrims (List.replicate 24 0) (Message.mk 20 [1, 2, 3] 140 true)
          (List.replicate 32 7))
        (List.replicate 32 7) = some (Message.mk 20 [1, 2, 3] 140 true)) :=
  ⟨by decide,
    c6_rnd_nonce_roundtrip toyPrims (List.replicate 24 0) (List.replicate 32 7)
      (Message.mk 20 [1, 2, 3] 140 true) (by decide)⟩

theorem findDupLogin_of_exists (sec l : List Nat) (users : List User)
    (h : ∃ u ∈ users, u.secret ≠ sec ∧ u.login = l) :
    findDupLogin sec (some l) users = some l := by
  induction users with
  | nil => simp at h
  | cons u rest ih =>
    simp only [findDupLogin]
    rcases h with ⟨v, hv, hvs, hvl⟩
    rcases List.mem_cons.mp hv with hv | hv
    · subst hv
      rw [if_neg (fun he => hvs he.symm), if_pos hvl.symm]
    · by_cases hs : sec = u.secret
      · rw [if_pos hs]
        exact ih ⟨v, hv, hvs, hvl⟩
      · rw [if_neg hs]
        by_cases hl : l = u.login
        · rw [if_pos hl]
        · rw [if_neg hl]
          exact ih ⟨v, hv, hvs, hvl⟩

theorem findDupLogin_of_not_exists (sec l : List Nat) (users : List User)
    (h : ¬∃ u ∈ users, u.secret ≠ sec ∧ u.login = l) :
    findDupLogin sec (some l) users = none := by
  induction users with
  | nil => rfl
  | cons u rest ih =>
    simp only [findDupLogin]
    have hrest : ¬∃ v ∈ rest, v.secret ≠ sec ∧ v.login = l := by
      intro ⟨v, hv, hp⟩
      exact h ⟨v, List.mem_cons_of_mem u hv, hp⟩
    by_cases hs : sec = u.secret
    · rw [if_pos hs]
      exact ih hrest
    · rw [if_neg hs]
      by_cases hl : l = u.login
      · exact absurd ⟨u, List.mem_cons_self u rest, fun he => hs he.symm, hl.symm⟩ h
      · rw [if_neg hl]
        exact ih hrest

/-- C2 (amended): `add_user_ipv6` fails with `Duplicate{login}` exactly when
some existing user has a different secret (a different password) and the same
explicitly given login; in every other case — including a colliding secret
under a different login, and re-adding the very same (password, login) pair —
the new user is appended and `Ok` is returned. -/
theorem c2_add_user (C : CryptoPrims) (users : List User) (password l : List Nat)
    (ipv6 : Option (List Nat)) :
    ((∃ u ∈ users, u.secret ≠ C.sha256 password ∧ u.login = l) →
      add_user_ipv6 C users password (some l) ipv6 = .error (.Duplicate l)) ∧
    (¬(∃ u ∈ users, u.secret ≠ C.sha256 password ∧ u.login = l) →
      add_user_ipv6 C users password (some l) ipv6 =
        .ok (users ++
          [{ password_hash := 1 % 256 :: ((C.sha256 (C.sha256 password)).drop 1).take 7
             user_name_hash := 2 % 256 :: ((C.sha256 l).drop 1).take 7
             secret := C.sha256 password
             login := l
             restricted_to_ip6 := ipv6 }])) := by
  constructor
  · intro h
    have hfd := findDupLogin_of_exists (C.sha256 password) l users h
    simp [add_user_ipv6, hash_password, Challenge.as_key_bytes, hfd]
  · intro h
    have hfd := findDupLogin_of_not_exists (C.sha256 password) l users h
    simp [add_user_ipv6, hash_password, Challenge.as_key_bytes, hfd]

/-- Witness for C2: a registry holding login "a" with a different secret makes
adding login "a" with password [5] fail as a duplicate. -/
theorem c2_witness :
    (∃ u ∈ [(⟨[], [], toyPrims.sha256 [6], [97], none⟩ : User)],
      u.secret ≠ toyPrims.sha256 [5] ∧ u.login = [97]) ∧
    add_user_ipv6 toyPrims [⟨[], [], toyPrims.sha256 [6], [97], none⟩] [5] (some [97]) none =
      .error (.Duplicate [97]) :=
  ⟨by decide,
    (c2_add_user toyPrims [⟨[], [], toyPrims.sha256 [6], [97], none⟩] [5] [97] none).1
      (by decide)⟩

/-- The registry after adding ("pass1", "alice") once, under the toy
primitives. -/
def c2Reg : List User :=
  match add_user_ipv6 toyPrims [] [112, 97, 115, 115, 49] (some [97, 108, 105, 99, 101]) none with
  | .ok users => users
  | .error _ => []

/-- C2 counterexample: re-adding the exact (password, login) pair already
registered returns `Ok` and appends a second copy (the claim says it returns
`Duplicate{login}`), and a colliding secret under a different login also
appends (the claim says the registry is left unchanged). -/
theorem c2_counterexample :
    add_user_ipv6 toyPrims [] [112, 97, 115, 115, 49] (some [97, 108, 105, 99, 101]) none =
      .ok c2Reg ∧
    c2Reg.length = 1 ∧
    add_user_ipv6 toyPrims c2Reg [112, 97, 115, 115, 49] (some [97, 108, 105, 99, 101]) none =
      .ok (c2Reg ++ c2Reg) ∧
    (add_user_ipv6 toyPrims c2Reg [112, 97, 115, 115, 49] (some [98, 111, 98]) none).map
        List.length = .ok 2 :=
  ⟨rfl, rfl, rfl, rfl⟩

/-- C7: on a message passing the pre-checks, a traffic-nonce packet on a
non-established session whose handshake has not reached `SentKey` is rejected
with `NoSession` with the session and replay protector unchanged; a key-nonce
packet (2 or 3) on an established session is rejected with
`KeyPktEstablishedSession`, also without touching the state. -/
theorem c7_dispatch_errors (C : CryptoPrims) (ctx : Ctx) (s : SessionMut)
    (rp : ReplayProtector) (msg : Message) (now : Nat)
    (hpad : 12 ≤ msg.pad) (hal : msg.aligned4 = true)
    (hcap : msg.cap % 4 = 0) (hlen : 120 ≤ msg.bytes.length) :
    (s.established = false → 4 ≤ (parseHeader msg.bytes).nonce → s.next_nonce < 3 →
      session_decrypt C ctx s rp msg now =
        (.error (.DecryptErr .NoSession), s, rp, msg.discardBytes 4)) ∧
    (s.established = true →
      ((parseHeader msg.bytes).nonce = 2 ∨ (parseHeader msg.bytes).nonce = 3) →
      session_decrypt C ctx s rp msg now =
        (.error (.DecryptErr .KeyPktEstablishedSession), s, rp, msg.discardBytes 4)) := by
  constructor
  · intro he hn h3
    simp only [session_decrypt]
    rw [if_neg (by omega), if_neg (by omega), if_neg (by simp [hal]), if_neg (by simp [hcap]),
      if_neg (by omega), if_pos he, if_pos hn, if_pos h3]
  · intro he hn
    simp only [session_decrypt]
    rw [if_neg (by omega), if_neg (by omega), if_neg (by simp [hal]), if_neg (by simp [hcap]),
      if_neg (by omega), if_neg (by simp [he]), if_neg (by omega), if_neg (by omega)]

/-- Witness for C7: a concrete 120-byte packet with wire nonce 5 against a
fresh (nonce 0) session yields `NoSession`, and a wire nonce 2 against an
established session yields `KeyPktEstablishedSession`. -/
theorem c7_witness :
    ((⟨12, [0, 0, 0, 5] ++ List.replicate 116 0, 120, true⟩ : Message).aligned4 = true ∧
     ({ wSess with next_nonce := 0 } : SessionMut).established = false ∧
     session_decrypt toyPrims ⟨List.replicate 32 2, List.replicate 32 9, []⟩
        { wSess with next_nonce := 0 } ReplayProtector.new
        ⟨12, [0, 0, 0, 5] ++ List.replicate 116 0, 120, true⟩ 77 =
       (.error (.DecryptErr .NoSession), { wSess with next_nonce := 0 },
         ReplayProtector.new,
         (⟨12, [0, 0, 0, 5] ++ List.replicate 116 0, 120, true⟩ : Message).discardBytes 4)) ∧
    (({ wSess with next_nonce := 9, established := true } : SessionMut).established = true ∧
     session_decrypt toyPrims ⟨List.replicate 32 2, List.replicate 32 9, []⟩
        { wSess with next_nonce := 9, established := true } ReplayProtector.new
        ⟨12, [0, 0, 0, 2] ++ List.replicate 116 0, 120, true⟩ 77 =
       (.error (.DecryptErr .KeyPktEstablishedSession),
         { wSess with next_nonce := 9, established := true },
         ReplayProtector.new,
         (⟨12, [0, 0, 0, 2] ++ List.replicate 116 0, 120, true⟩ : Message).discardBytes 4)) :=
  ⟨⟨rfl, rfl,
    (c7_dispatch_errors toyPrims ⟨List.replicate 32 2, List.replicate 32 9, []⟩
      { wSess with next_nonce := 0 } ReplayProtector.new
      ⟨12, [0, 0, 0, 5] ++ List.replicate 116 0, 120, true⟩ 77
      (by decide) rfl (by decide) (by decide)).1 rfl (by decide) (by decide)⟩,
   ⟨rfl,
    (c7_dispatch_errors toyPrims ⟨List.replicate 32 2, List.replicate 32 9, []⟩
      { wSess with next_nonce := 9, established := true } ReplayProtector.new
      ⟨12, [0, 0, 0, 2] ++ List.replicate 116 0, 120, true⟩ 77
      (by decide) rfl (by decide) (by decide)).2 rfl (by decide)⟩⟩

/-- C3: first traffic packet on a non-established session (wire nonce ≥ 4,
`next_nonce ≥ SentKey`): the replay protector ends initialized to `nonce + 1`
whether or not decryption succeeds; on success the session stores the
ephemeral-derived shared secret, becomes established, advances `next_nonce`
by 3 and stamps the packet time; on failure the error of the decryption
attempt is returned and no session-mut state is changed. -/
theorem c3_first_traffic (C : CryptoPrims) (ctx : Ctx) (s : SessionMut)
    (rp : ReplayProtector) (msg : Message) (now : Nat)
    (hpad : 12 ≤ msg.pad) (hal : msg.aligned4 = true) (hcap : msg.cap % 4 = 0)
    (hlen : 120 ≤ msg.bytes.length)
    (he : s.established = false) (hn : 4 ≤ (parseHeader msg.bytes).nonce)
    (h3 : 3 ≤ s.next_nonce) :
    (session_decrypt C ctx s rp msg now).2.2.1 =
      ReplayProtector.init ((parseHeader msg.bytes).nonce + 1) ∧
    (∀ m2 rp2,
      decrypt_message C s (parseHeader msg.bytes).nonce (msg.discardBytes 4)
          (get_shared_secret C s.our_temp_priv_key s.her_temp_pub_key none) rp =
        (.ok m2, rp2) →
      session_decrypt C ctx s rp msg now =
        (.ok (),
          { s with
              shared_secret := get_shared_secret C s.our_temp_priv_key s.her_temp_pub_key none
              established := true
              next_nonce := s.next_nonce + 3
              time_of_last_packet := now },
          ReplayProtector.init ((parseHeader msg.bytes).nonce + 1), m2)) ∧
    (∀ e rp2,
      decrypt_message C s (parseHeader msg.bytes).nonce (msg.discardBytes 4)
          (get_shared_secret C s.our_temp_priv_key s.her_temp_pub_key none) rp =
        (.error e, rp2) →
      session_decrypt C ctx s rp msg now =
        (.error e, s, ReplayProtector.init ((parseHeader msg.bytes).nonce + 1),
          msg.discardBytes 4)) := by
  have base : session_decrypt C ctx s rp msg now =
      (match decrypt_message C s (parseHeader msg.bytes).nonce (msg.discardBytes 4)
          (get_shared_secret C s.our_temp_priv_key s.her_temp_pub_key none) rp with
       | (.ok m2, _) =>
         (.ok (),
           { s with
               shared_secret := get_shared_secret C s.our_temp_priv_key s.her_temp_pub_key none
               established := true
               next_nonce := s.next_nonce + 3
               time_of_last_packet := now },
           ReplayProtector.init ((parseHeader msg.bytes).nonce + 1), m2)
       | (.error e, _) =>
         (.error e, s, ReplayProtector.init ((parseHeader msg.bytes).nonce + 1),
           msg.discardBytes 4)) := by
    simp only [session_decrypt]
    rw [if_neg (by omega), if_neg (by omega), if_neg (by simp [hal]), if_neg (by simp [hcap]),
      if_neg (by omega), if_pos he, if_pos hn, if_neg (by omega)]
  refine ⟨?_, ?_, ?_⟩
  · rw [base]
    rcases hdm : decrypt_message C s (parseHeader msg.bytes).nonce (msg.discardBytes 4)
        (get_shared_secret C s.our_temp_priv_key s.her_temp_pub_key none) rp with ⟨r, rp2⟩
    cases r <;> rfl
  · intro m2 rp2 hdm
    rw [base, hdm]
  · intro e rp2 hdm
    rw [base, hdm]

set_option maxRecDepth 4000 in
/-- Witness for C3 at a concrete packet that decrypts under the toy
primitives: wire nonce 5 against a `SentKey` session establishes it. -/
theorem c3_witness :
    ({ wSess with next_nonce := 3 } : SessionMut).established = false ∧
    3 ≤ ({ wSess with next_nonce := 3 } : SessionMut).next_nonce ∧
    decrypt_message toyPrims { wSess with next_nonce := 3 } 5
        ((⟨12, [0, 0, 0, 5] ++ List.replicate 116 0, 120, true⟩ : Message).discardBytes 4)
        (get_shared_secret toyPrims zeros32 zeros32 none) ReplayProtector.new =
      (.ok (⟨32, List.replicate 100 0, 120, true⟩ : Message), ⟨0, [5]⟩) ∧
    session_decrypt toyPrims ⟨List.replicate 32 2, List.replicate 32 9, []⟩
        { wSess with next_nonce := 3 } ReplayProtector.new
        ⟨12, [0, 0, 0, 5] ++ List.replicate 116 0, 120, true⟩ 77 =
      (.ok (),
        { wSess with
            next_nonce := 6
            established := true
            shared_secret := get_shared_secret toyPrims zeros32 zeros32 none
            time_of_last_packet := 77 },
        ReplayProtector.init 6, (⟨32, List.replicate 100 0, 120, true⟩ : Message)) := by
  refine ⟨rfl, by decide, by decide, ?_⟩
  have h := (c3_first_traffic toyPrims ⟨List.replicate 32 2, List.replicate 32 9, []⟩
    { wSess with next_nonce := 3 } ReplayProtector.new
    ⟨12, [0, 0, 0, 5] ++ List.replicate 116 0, 120, true⟩ 77
    (by decide) rfl (by decide) (by decide) rfl (by decide) (by decide)).2.1
    (⟨32, List.replicate 100 0, 120, true⟩ : Message) ⟨0, [5]⟩ (by decide)
  exact h

theorem from32be_be32 (v : Nat) (h : v < 4294967296) : from32be (be32 v) = v := by
  simp only [be32, from32be]
  omega

theorem take4_be32_front (v : Nat) (x y : List Nat) :
    ((be32 v ++ x) ++ y).take 4 = be32 v := by
  rw [List.append_assoc, List.take_append_of_le_length (by simp [be32])]
  rfl

theorem encrypt_handshake_seal_ok (C : CryptoPrims) (s : SessionMut) (m : Message)
    (hsN sec : List Nat) (s2 : SessionMut) (m2 : Message)
    (h : encrypt_handshake_seal C s m hsN sec = (.ok (), s2, m2)) :
    s2 = s ∧
    m2 = (encrypt_rnd_nonce C hsN (m.discardBytes 88) sec).pushBytes
      ((m.bytes.take 88).take 72) := by
  unfold encrypt_handshake_seal at h
  split at h
  · cases h
  · simp only [Prod.mk.injEq] at h
    exact ⟨h.2.1.symm, h.2.2.symm⟩

theorem take4_of_seal_push (C : CryptoPrims) (hsN sec : List Nat) (m : Message)
    (v : Nat) (hm : m.bytes.take 4 = be32 v) (hlen : 4 ≤ m.bytes.length) :
    ((encrypt_rnd_nonce C hsN (m.discardBytes 88) sec).pushBytes
      ((m.bytes.take 88).take 72)).bytes.take 4 = be32 v := by
  have h1 : (m.bytes.take 88).take 72 = m.bytes.take 72 := by
    rw [List.take_take]
    norm_num
  have h2 : 4 ≤ (m.bytes.take 72).length := by
    rw [List.length_take]
    omega
  have h3 : (m.bytes.take 72).take 4 = be32 v := by
    rw [List.take_take]
    norm_num
    exact hm
  rw [Message.pushBytes, h1]
  show ((m.bytes.take 72) ++ _).take 4 = be32 v
  rw [List.take_append_of_le_length h2, h3]

theorem encrypt_handshake_ok_front4 (C : CryptoPrims) (ctx : Ctx) (s : SessionMut)
    (msg : Message) (hsR tP : List Nat) (s2 : SessionMut) (m2 : Message)
    (h : encrypt_handshake C ctx s msg hsR tP = (.ok (), s2, m2)) :
    m2.bytes.take 4 = be32 s.next_nonce := by
  unfold encrypt_handshake at h
  split at h
  · cases h
  split at h
  · cases h
  rcases hA : mkAuthBytes C s (hsR.take 12) with _ | ab
  · simp only [hA] at h
    simp at h
  · simp only [hA] at h
    split at h
    all_goals split at h
    all_goals try split at h
    all_goals first
      | (rcases encrypt_handshake_seal_ok _ _ _ _ _ _ _ h with ⟨_, hm2⟩
         rw [hm2]
         refine take4_of_seal_push _ _ _ _ _ (take4_be32_front _ _ _) ?_
         simp [Message.pushBytes, be32])
      | simp at h

theorem encrypt_traffic_tail_ok (C : CryptoPrims) (s : SessionMut) (msg : Message)
    (s2 : SessionMut) (m2 : Message)
    (h : encrypt_traffic_tail C s msg = (.ok (), s2, m2)) :
    s2 = { s with next_nonce := s.next_nonce + 1 } ∧
    m2 = (encrypt C s.next_nonce msg s.shared_secret s.is_initiator).pushBytes
      (be32 s.next_nonce) := by
  simp only [encrypt_traffic_tail] at h
  split at h
  · cases h
  split at h
  · cases h
  split at h
  · cases h
  · simp only [Prod.mk.injEq] at h
    exact ⟨h.2.1.symm, h.2.2.symm⟩

theorem session_encrypt_traffic (C : CryptoPrims) (ctx : Ctx) (s : SessionMut)
    (msg : Message) (now : Nat) (hsR tP : List Nat)
    (hnt : s.reset_if_timeout now = s) (hal : msg.aligned4 = true)
    (h4 : 4 ≤ s.next_nonce) (hlt : s.next_nonce < 4294967280)
    (s2 : SessionMut) (m2 : Message)
    (h : session_encrypt C ctx s msg now hsR tP = (.ok (), s2, m2)) :
    m2.bytes.take 4 = be32 s.next_nonce ∧ s2.next_nonce = s.next_nonce + 1 := by
  simp only [session_encrypt] at h
  rw [hnt] at h
  rw [if_neg (show ¬(4294967280 ≤ s.next_nonce) by omega)] at h
  rw [if_neg (show ¬(msg.aligned4 = false) by simp [hal])] at h
  by_cases h44 : s.next_nonce = 4
  · rw [if_pos (show s.next_nonce ≤ 4 by omega),
      if_neg (show ¬(s.next_nonce < 4) by omega)] at h
    rcases encrypt_traffic_tail_ok _ _ _ _ _ h with ⟨hs2, hm2⟩
    refine ⟨?_, by rw [hs2]⟩
    rw [hm2, Message.pushBytes]
    show (be32 _ ++ _).take 4 = _
    rw [List.take_append_of_le_length (by simp [be32])]
    rfl
  · rw [if_neg (show ¬(s.next_nonce ≤ 4) by omega)] at h
    rcases encrypt_traffic_tail_ok _ _ _ _ _ h with ⟨hs2, hm2⟩
    refine ⟨?_, by rw [hs2]⟩
    rw [hm2, Message.pushBytes]
    show (be32 _ ++ _).take 4 = _
    rw [List.take_append_of_le_length (by simp [be32])]
    rfl

/-- C4: an `encrypt` call whose (timeout-stable) session counter has reached
`u32::MAX - 15` resets the session and proceeds as a fresh handshake, so a
successful emission starts with the big-endian Hello nonce 0; in the traffic
path a successful `encrypt` prepends the current `next_nonce` big-endian and
increments the counter by exactly one, so the nonce prefixes of consecutive
successful traffic encrypts strictly increase. -/
theorem c4_nonce_emission (C : CryptoPrims) (ctx : Ctx) (s : SessionMut) (msg : Message)
    (now : Nat) (hsR tP : List Nat)
    (hnt : s.reset_if_timeout now = s) (hal : msg.aligned4 = true) :
    (4294967280 ≤ s.next_nonce →
      session_encrypt C ctx s msg now hsR tP = encrypt_handshake C ctx s.reset msg hsR tP ∧
      ∀ s2 m2, encrypt_handshake C ctx s.reset msg hsR tP = (.ok (), s2, m2) →
        m2.bytes.take 4 = be32 0) ∧
    (4 ≤ s.next_nonce → s.next_nonce < 4294967280 →
      ∀ s2 m2, session_encrypt C ctx s msg now hsR tP = (.ok (), s2, m2) →
        m2.bytes.take 4 = be32 s.next_nonce ∧ s2.next_nonce = s.next_nonce + 1 ∧
        (∀ now2 hsR2 tP2 msg2 s3 m3,
          s2.reset_if_timeout now2 = s2 → msg2.aligned4 = true →
          s2.next_nonce < 4294967280 →
          session_encrypt C ctx s2 msg2 now2 hsR2 tP2 = (.ok (), s3, m3) →
          from32be (m2.bytes.take 4) < from32be (m3.bytes.take 4))) := by
  constructor
  · intro hw
    constructor
    · simp only [session_encrypt]
      rw [hnt]
      rw [if_pos hw]
      rw [if_neg (show ¬(msg.aligned4 = false) by simp [hal])]
      rw [if_pos (show (SessionMut.reset s).next_nonce ≤ 4 by simp [SessionMut.reset])]
      rw [if_pos (show (SessionMut.reset s).next_nonce < 4 by simp [SessionMut.reset])]
    · intro s2 m2 h
      have hpre := encrypt_handshake_ok_front4 C ctx s.reset msg hsR tP s2 m2 h
      simpa [SessionMut.reset] using hpre
  · intro h4 hlt s2 m2 h
    rcases session_encrypt_traffic C ctx s msg now hsR tP hnt hal h4 hlt s2 m2 h with ⟨hp, hn⟩
    refine ⟨hp, hn, ?_⟩
    intro now2 hsR2 tP2 msg2 s3 m3 hnt2 hal2 hlt2 h2
    rcases session_encrypt_traffic C ctx s2 msg2 now2 hsR2 tP2 hnt2 hal2 (by omega)
      hlt2 s3 m3 h2 with ⟨hp2, _⟩
    rw [hp, hp2, from32be_be32 _ (by omega), from32be_be32 _ (by omega), hn]
    omega

/-- Context for the C4 evaluation. -/
def c4Ctx : Ctx := ⟨List.replicate 32 2, List.replicate 32 9, []⟩

/-- An established session with counter 5 for the C4 evaluation. -/
def c4S : SessionMut := { wSess with next_nonce := 5, established := true }

/-- A 4-byte payload with ample padding for the C4 evaluation. -/
def c4Msg : Message := ⟨40, [1, 2, 3, 4], 160, true⟩

/-- The session after the C4 traffic encrypt. -/
def c4S2 : SessionMut := { c4S with next_nonce := 6 }

/-- The emitted C4 traffic packet under the toy primitives. -/
def c4M2 : Message :=
  ⟨20, be32 5 ++ (List.replicate 16 0 ++ [1, 2, 3, 4]), 160, true⟩

/-- Witness for C4: a concrete traffic encrypt at counter 5 emits the prefix
`be32 5` and advances the counter to 6. -/
theorem c4_witness :
    c4S.reset_if_timeout 0 = c4S ∧ c4Msg.aligned4 = true ∧
    4 ≤ c4S.next_nonce ∧ c4S.next_nonce < 4294967280 ∧
    session_encrypt toyPrims c4Ctx c4S c4Msg 0 [] [] = (.ok (), c4S2, c4M2) ∧
    (c4M2.bytes.take 4 = be32 c4S.next_nonce ∧ c4S2.next_nonce = c4S.next_nonce + 1 ∧
      (∀ now2 hsR2 tP2 msg2 s3 m3,
        c4S2.reset_if_timeout now2 = c4S2 → msg2.aligned4 = true →
        c4S2.next_nonce < 4294967280 →
        session_encrypt toyPrims c4Ctx c4S2 msg2 now2 hsR2 tP2 = (.ok (), s3, m3) →
        from32be (c4M2.bytes.take 4) < from32be (m3.bytes.take 4))) :=
  ⟨by decide, rfl, by decide, by decide, by decide,
    (c4_nonce_emission toyPrims c4Ctx c4S c4Msg 0 [] [] (by decide) rfl).2
      (by decide) (by decide) c4S2 c4M2 (by decide)⟩

/-- C1 (amended): crossed-hello tie-break on a `SentHello` session receiving a
hello with a fresh ephemeral key — when OUR permanent public key is the
numerically greater one (hers compares below ours byte-wise) the session is
reset, the replay protector is reset and the new ephemeral key is adopted;
when hers is the greater the session holds its state and `Ok` is returned
with no changes. -/
theorem c1_crossed_hello (C : CryptoPrims) (ctx : Ctx) (s : SessionMut)
    (rp : ReplayProtector) (nonce : Nat) (msg : Message) (header : CryptoHeader)
    (m2 : Message)
    (hlen : 120 ≤ msg.bytes.length)
    (hnn : s.next_nonce = 1)
    (hknown : isZero s.her_public_key = false)
    (hpk : header.public_key = s.her_public_key)
    (htemp : isZero s.her_temp_pub_key = true)
    (hauth : get_auth ctx.users header.auth = none)
    (hat : header.auth.auth_type = 0)
    (hra : s.require_auth = false)
    (hhello : nonce = 0 ∨ nonce = 1)
    (hdec : decrypt_rnd_nonce C header.handshake_nonce (msg.discardBytes 72)
        (get_shared_secret C ctx.private_key s.her_public_key none) = some m2)
    (hwise : isZero header.encrypted_temp_key = false)
    (hdiff : s.her_temp_pub_key ≠ header.encrypted_temp_key) :
    (bytesLt s.her_public_key ctx.public_key = true →
      decrypt_handshake C ctx s rp nonce msg header =
        (.ok (),
          { s.reset with
              her_temp_pub_key := header.encrypted_temp_key
              next_nonce := 2 },
          ReplayProtector.new, m2.discardBytes 32)) ∧
    (bytesLt s.her_public_key ctx.public_key = false →
      decrypt_handshake C ctx s rp nonce msg header = (.ok (), s, rp, m2.discardBytes 32)) := by
  have base : decrypt_handshake C ctx s rp nonce msg header =
      dh_transition C ctx s rp nonce (m2.discardBytes 32) header 2 := by
    rw [decrypt_handshake]
    rw [if_neg (by omega), if_neg (by simp [hknown]), if_neg (by simp [hpk]),
      if_neg (by simp [hnn, htemp]), hauth]
    rw [dh_checked]
    rw [if_neg (by simp [hra]), if_neg (by simp [hat]), if_pos (by omega)]
    simp only [dh_post, hdec]
    rw [if_neg (by simp [hwise])]
    rw [if_neg (fun hc => hdiff hc.2)]
    rw [if_neg (by rcases hhello with h | h <;> simp [h])]
    rw [if_neg (by rcases hhello with h | h <;> simp [h])]
  constructor
  · intro hlt
    rw [base, dh_transition]
    rw [if_neg (by norm_num), if_neg (not_not_intro hhello), if_pos hdiff, if_pos hnn,
      if_pos hlt, dh_finish, if_pos (Or.inl (by simp [SessionMut.reset]))]
  · intro hlt
    rw [base, dh_transition]
    rw [if_neg (by norm_num), if_neg (not_not_intro hhello), if_pos hdiff, if_pos hnn,
      if_neg (by simp [hlt])]

/-- The her-side permanent key for the C1 evaluation: below `c1Ctx`'s key. -/
def c1HerPub : List Nat := 1 :: List.replicate 31 0

/-- Context for the C1 evaluation: our permanent key is all-2s, the greater. -/
def c1Ctx : Ctx := ⟨List.replicate 32 2, List.replicate 32 9, []⟩

/-- A `SentHello` session with the C1 keys. -/
def c1S : SessionMut :=
  { wSess with her_public_key := c1HerPub, next_nonce := 1, is_initiator := true }

/-- A 120-byte crossed hello packet carrying a fresh ephemeral key (all-7s). -/
def c1Msg : Message :=
  ⟨12, be32 0 ++ List.replicate 36 0 ++ c1HerPub ++ List.replicate 16 0 ++ List.replicate 32 7,
    120, true⟩

/-- The message state after the handshake decryption of `c1Msg`. -/
def c1M2 : Message := ⟨100, List.replicate 32 7, 120, true⟩

set_option maxRecDepth 8000 in
/-- C1 counterexample: with our permanent key numerically greater than hers, a
crossed hello makes `decrypt` return `Ok` but RESET the session (next nonce
moves from 1 to 2 and the new ephemeral key is adopted), not hold it
unchanged as the claim states. -/
theorem c1_counterexample :
    bytesLt c1S.her_public_key c1Ctx.public_key = true ∧
    (session_decrypt toyPrims c1Ctx c1S ReplayProtector.new c1Msg 0).1 = .ok () ∧
    c1S.next_nonce = 1 ∧
    (session_decrypt toyPrims c1Ctx c1S ReplayProtector.new c1Msg 0).2.1.next_nonce = 2 ∧
    (session_decrypt toyPrims c1Ctx c1S ReplayProtector.new c1Msg 0).2.1.her_temp_pub_key =
      List.replicate 32 7 := by
  refine ⟨?_, ?_, ?_, ?_, ?_⟩ <;> decide

set_option maxRecDepth 8000 in
/-- Witness for C1 at the concrete crossed hello: the reset branch fires and
produces exactly the reset-and-adopt state. -/
theorem c1_witness :
    c1S.next_nonce = 1 ∧ bytesLt c1S.her_public_key c1Ctx.public_key = true ∧
    decrypt_handshake toyPrims c1Ctx c1S ReplayProtector.new 0 c1Msg
        (parseHeader c1Msg.bytes) =
      (.ok (),
        { c1S.reset with
            her_temp_pub_key := (parseHeader c1Msg.bytes).encrypted_temp_key
            next_nonce := 2 },
        ReplayProtector.new, c1M2.discardBytes 32) :=
  ⟨rfl, by decide,
    (c1_crossed_hello toyPrims c1Ctx c1S ReplayProtector.new 0 c1Msg
      (parseHeader c1Msg.bytes) c1M2 (by decide) rfl (by decide) (by decide) (by decide)
      (by decide) (by decide) rfl (Or.inl rfl) (by decide) (by decide) (by decide)).1
      (by decide)⟩

/-- The C9 session invariant: the handshake has not passed `SentHello` exactly
when the peer's ephemeral key is still unknown (all-zero). -/
def InvTemp (s : SessionMut) : Prop :=
  s.next_nonce < 2 ↔ isZero s.her_temp_pub_key = true

theorem isZero_zeros32 : isZero zeros32 = true := by decide

theorem inv_reset (s : SessionMut) : InvTemp s.reset := by
  simp [InvTemp, SessionMut.reset, isZero_zeros32]

theorem inv_reset_if_timeout (s : SessionMut) (now : Nat) (h : InvTemp s) :
    InvTemp (s.reset_if_timeout now) := by
  simp only [SessionMut.reset_if_timeout]
  split
  · exact h
  · split
    · exact h
    · split
      · exact h
      · exact inv_reset _

theorem inv_set_auth (s : SessionMut) (password login : Option (List Nat)) (h : InvTemp s) :
    InvTemp (s.set_auth password login) := by
  simp only [SessionMut.set_auth]
  split
  · exact inv_reset _
  · split
    · exact inv_reset _
    · exact h

theorem encrypt_handshake_seal_snd (C : CryptoPrims) (s : SessionMut) (m : Message)
    (hsN sec : List Nat) : (encrypt_handshake_seal C s m hsN sec).2.1 = s := by
  rw [encrypt_handshake_seal]
  split <;> rfl

theorem inv_encrypt_handshake (C : CryptoPrims) (ctx : Ctx) (s : SessionMut)
    (msg : Message) (hsR tP : List Nat) (h : InvTemp s) :
    InvTemp (encrypt_handshake C ctx s msg hsR tP).2.1 := by
  simp only [encrypt_handshake]
  split
  · exact h
  split
  · exact h
  rcases hA : mkAuthBytes C s (hsR.take 12) with _ | ab <;> simp only [hA]
  · exact h
  · by_cases hreg : s.next_nonce = 0 ∨ s.next_nonce = 2
    · rw [if_pos hreg]
      by_cases hlt : s.next_nonce < 2
      · rw [if_pos hlt, encrypt_handshake_seal_snd]
        simp only [InvTemp]
        simp
        exact h.mp hlt
      · rw [if_neg hlt, if_neg (show ¬(3 < s.next_nonce) by omega),
          encrypt_handshake_seal_snd]
        simp only [InvTemp]
        simp
        cases hb : isZero s.her_temp_pub_key
        · rfl
        · exact absurd (h.mpr hb) (by omega)
    · rw [if_neg hreg]
      by_cases hlt : s.next_nonce < 2
      · rw [if_pos hlt, encrypt_handshake_seal_snd]
        simp only [InvTemp]
        simp
        exact h.mp hlt
      · rw [if_neg hlt]
        by_cases h3 : 3 < s.next_nonce
        · rw [if_pos h3]
          exact h
        · rw [if_neg h3, encrypt_handshake_seal_snd]
          simp only [InvTemp]
          simp
          cases hb : isZero s.her_temp_pub_key
          · rfl
          · exact absurd (h.mpr hb) (by omega)

theorem inv_traffic_tail (C : CryptoPrims) (s : SessionMut) (msg : Message)
    (h2 : 2 ≤ s.next_nonce) (h : InvTemp s) :
    InvTemp (encrypt_traffic_tail C s msg).2.1 := by
  have hz : isZero s.her_temp_pub_key = false := by
    cases hb : isZero s.her_temp_pub_key
    · rfl
    · exact absurd (h.mpr hb) (by omega)
  simp only [encrypt_traffic_tail]
  split
  · exact h
  split
  · exact h
  split
  · exact h
  · simp only [InvTemp, hz]
    constructor
    · intro hc
      omega
    · intro hc
      cases hc

theorem inv_session_encrypt (C : CryptoPrims) (ctx : Ctx) (s : SessionMut)
    (msg : Message) (now : Nat) (hsR tP : List Nat) (h : InvTemp s) :
    InvTemp (session_encrypt C ctx s msg now hsR tP).2.1 := by
  have h1 : InvTemp (s.reset_if_timeout now) := inv_reset_if_timeout s now h
  simp only [session_encrypt]
  by_cases hw : 4294967280 ≤ (s.reset_if_timeout now).next_nonce
  · rw [if_pos hw]
    split
    · exact inv_reset _
    · split
      · split
        · exact inv_encrypt_handshake _ _ _ _ _ _ (inv_reset _)
        · rename_i hge
          simp [SessionMut.reset] at hge
      · rename_i hgt
        simp [SessionMut.reset] at hgt
  · rw [if_neg hw]
    split
    · exact h1
    · split
      · split
        · exact inv_encrypt_handshake _ _ _ _ _ _ h1
        · rename_i hge
          refine inv_traffic_tail _ _ _ ?_ h1
          show 2 ≤ (s.reset_if_timeout now).next_nonce
          omega
      · rename_i hgt
        exact inv_traffic_tail _ _ _ (by omega) h1

theorem dh_finish_ok (s : SessionMut) (rp : ReplayProtector) (cand : Nat) (msg : Message)
    (hg : s.next_nonce < cand ∨ (s.next_nonce ≤ 4 ∧ cand = s.next_nonce)) :
    dh_finish s rp cand msg =
      (.ok (), { s with next_nonce := cand }, ReplayProtector.new, msg) := by
  rw [dh_finish, if_pos hg]

theorem dh_finish_inv (s : SessionMut) (rp : ReplayProtector) (cand : Nat) (msg : Message)
    (hg : s.next_nonce < cand ∨ (s.next_nonce ≤ 4 ∧ cand = s.next_nonce))
    (h2 : 2 ≤ cand) (hz : isZero s.her_temp_pub_key = false) :
    InvTemp (dh_finish s rp cand msg).2.1 := by
  rw [dh_finish_ok _ _ _ _ hg]
  simp [InvTemp, hz]
  omega

theorem inv_dh_transition (C : CryptoPrims) (ctx : Ctx) (s : SessionMut)
    (rp : ReplayProtector) (nonce : Nat) (msg : Message) (header : CryptoHeader)
    (cand : Nat) (hz : isZero header.encrypted_temp_key = false) (h : InvTemp s) :
    InvTemp (dh_transition C ctx s rp nonce msg header cand).2.1 := by
  have hzs : 2 ≤ s.next_nonce → isZero s.her_temp_pub_key = false := by
    intro h2
    cases hb : isZero s.her_temp_pub_key
    · rfl
    · exact absurd (h.mpr hb) (by omega)
  rw [dh_transition]
  split
  · split
    · exact h
    split
    · exact h
    split
    · rename_i hnn1
      apply dh_finish_inv
      · exact Or.inl (show s.next_nonce < 4 by omega)
      · norm_num
      · exact hz
    split
    · rename_i hnn4
      split
      · apply dh_finish_inv
        · exact Or.inr ⟨show s.next_nonce ≤ 4 by omega, show 4 = s.next_nonce by omega⟩
        · norm_num
        · exact hz
      · split
        · apply dh_finish_inv
          · exact Or.inr ⟨show s.next_nonce ≤ 4 by omega, show 4 = s.next_nonce by omega⟩
          · norm_num
          · exact hzs (by omega)
        · exact h
    · rename_i hns hn1 hn4
      split
      · exact h
      · split
        · apply dh_finish_inv
          · exact Or.inl (show s.next_nonce < s.next_nonce + 1 by omega)
          · show 2 ≤ s.next_nonce + 1
            omega
          · exact hz
        · split
          · apply dh_finish_inv
            · exact Or.inl (show s.next_nonce < s.next_nonce + 1 by omega)
            · show 2 ≤ s.next_nonce + 1
              omega
            · refine hzs ?_
              simp only [not_or] at hns
              omega
          · exact h
  · split
    · exact h
    · split
      · split
        · split
          · apply dh_finish_inv
            · exact Or.inl (show (0 : Nat) < 2 by norm_num)
            · norm_num
            · exact hz
          · exact h
        · split
          · rename_i hnn0
            apply dh_finish_inv
            · exact Or.inl (show s.next_nonce < 2 by omega)
            · norm_num
            · exact hz
          · apply dh_finish_inv
            · exact Or.inl (show (0 : Nat) < 2 by norm_num)
            · norm_num
            · exact hz
      · split
        · rename_i hnn23
          apply dh_finish_inv
          · exact Or.inr ⟨show s.next_nonce ≤ 4 by omega, rfl⟩
          · show 2 ≤ s.next_nonce
            omega
          · exact hzs (by omega)
        · exact h

theorem inv_dh_post (C : CryptoPrims) (ctx : Ctx) (s : SessionMut) (rp : ReplayProtector)
    (nonce : Nat) (msg : Message) (header : CryptoHeader) (secret : List Nat) (cand : Nat)
    (h : InvTemp s) : InvTemp (dh_post C ctx s rp nonce msg header secret cand).2.1 := by
  simp only [dh_post]
  split
  · exact h
  · split
    · exact h
    · rename_i hzp
      have hz : isZero header.encrypted_temp_key = false := by
        cases hb : isZero header.encrypted_temp_key
        · rfl
        · exact absurd hb hzp
      split
      · exact h
      split
      · split <;> exact h
      split
      · split <;> exact h
      · exact inv_dh_transition C ctx s rp nonce _ header cand hz h

theorem inv_dh_checked (C : CryptoPrims) (ctx : Ctx) (s : SessionMut) (rp : ReplayProtector)
    (nonce : Nat) (msg : Message) (header : CryptoHeader)
    (ph : Option (List Nat)) (hu : Bool) (h : InvTemp s) :
    InvTemp (dh_checked C ctx s rp nonce msg header ph hu).2.1 := by
  simp only [dh_checked]
  split
  · exact h
  split
  · exact h
  split
  · exact inv_dh_post _ _ _ _ _ _ _ _ _ h
  split
  · exact h
  split
  · exact h
  · exact inv_dh_post _ _ _ _ _ _ _ _ _ h

theorem inv_decrypt_handshake (C : CryptoPrims) (ctx : Ctx) (s : SessionMut)
    (rp : ReplayProtector) (nonce : Nat) (msg : Message) (header : CryptoHeader)
    (h : InvTemp s) : InvTemp (decrypt_handshake C ctx s rp nonce msg header).2.1 := by
  simp only [decrypt_handshake]
  split
  · exact h
  split
  · exact h
  split
  · exact h
  split
  · exact h
  split
  · split
    · split
      · exact inv_dh_checked _ _ _ _ _ _ _ _ _ h
      · exact h
    · exact inv_dh_checked _ _ _ _ _ _ _ _ _ h
  · exact inv_dh_checked _ _ _ _ _ _ _ _ _ h

theorem inv_session_decrypt (C : CryptoPrims) (ctx : Ctx) (s : SessionMut)
    (rp : ReplayProtector) (msg : Message) (now : Nat) (h : InvTemp s) :
    InvTemp (session_decrypt C ctx s rp msg now).2.1 := by
  simp only [session_decrypt]
  split
  · exact h
  split
  · exact h
  split
  · exact h
  split
  · exact h
  split
  · exact h
  split
  · split
    · split
      · exact h
      · rename_i hn3
        split
        · have hz : isZero s.her_temp_pub_key = false := by
            cases hb : isZero s.her_temp_pub_key
            · rfl
            · exact absurd (h.mpr hb) (by omega)
          simp [InvTemp, hz]
        · exact h
    · exact inv_decrypt_handshake _ _ _ _ _ _ _ h
  · split
    · split
      · simp only [InvTemp] at h ⊢
        exact h
      · exact h
    · split
      · exact inv_decrypt_handshake _ _ _ _ _ _ _ h
      · exact h

theorem inv_step (C : CryptoPrims) (ctx : Ctx) (p q : SessionMut × ReplayProtector)
    (hs : Step C ctx p q) (h : InvTemp p.1) : InvTemp q.1 := by
  cases hs with
  | encrypt s rp msg now hsR tP => exact inv_session_encrypt C ctx s msg now hsR tP h
  | decrypt s rp msg now => exact inv_session_decrypt C ctx s rp msg now h
  | reset s rp => exact inv_reset s
  | reset_if_timeout s rp now => exact inv_reset_if_timeout s now h
  | set_auth s rp password login => exact inv_set_auth s password login h

/-- C9: for every session state reachable from construction by any sequence of
`encrypt`, `decrypt`, `reset`, `reset_if_timeout` and `set_auth` operations,
`next_nonce < 2` holds exactly when `her_temp_pub_key` is all-zero. -/
theorem c9_temp_key_invariant (C : CryptoPrims) (ctx : Ctx) (her : List Nat)
    (ra : Bool) (t0 : Nat) (s0 : SessionMut) (p : SessionMut × ReplayProtector)
    (h0 : session_new C her ra t0 = .ok s0)
    (hr : Relation.ReflTransGen (Step C ctx) (s0, ReplayProtector.new) p) :
    p.1.next_nonce < 2 ↔ isZero p.1.her_temp_pub_key = true := by
  have hinv0 : InvTemp s0 := by
    rw [session_new] at h0
    split at h0
    · cases h0
    · split at h0
      · cases h0
      · cases h0
        simp [InvTemp, isZero_zeros32]
  have hall : ∀ q, Relation.ReflTransGen (Step C ctx) (s0, ReplayProtector.new) q →
      InvTemp q.1 := by
    intro q hq
    induction hq with
    | refl => exact hinv0
    | tail _hab hbc ih => exact inv_step C ctx _ _ hbc ih
  exact hall p hr

/-- Witness for C9: a freshly constructed session satisfies the invariant. -/
theorem c9_witness :
    session_new toyPrims (List.replicate 32 1) false 0 = .ok wSess ∧
    Relation.ReflTransGen (Step toyPrims c4Ctx) (wSess, ReplayProtector.new)
      (wSess, ReplayProtector.new) ∧
    (wSess.next_nonce < 2 ↔ isZero wSess.her_temp_pub_key = true) :=
  ⟨by decide, Relation.ReflTransGen.refl,
    c9_temp_key_invariant toyPrims c4Ctx (List.replicate 32 1) false 0 wSess
      (wSess, ReplayProtector.new) (by decide) Relation.ReflTransGen.refl⟩
